import Mathlib

/-!
Verification development for the swing-sdk event pipeline and transport layer.

The definitions below are a shallow embedding of the SDK's core:

* a JSON value model with a serializer matching the byte count that
  `new TextEncoder().encode(JSON.stringify(x)).length` produces in the source
  (`src/api.ts`, `SwingAPI.sendEventsChunked`);
* the chunking loop of `SwingAPI.sendEventsChunked` and the requeue-on-failure
  logic of `SwingTracker.uploadEvents` (`src/tracker.ts`);
* the structural redaction engine `SwingRedactionManager`
  (`src/redaction-manager.ts`);
* the console wrappers installed by `SwingTracker.enableConsoleTracking`;
* the session store `SwingSessionManager` (cookie jar plus localStorage);
* an event-loop scheduler for the buffer/flush interleavings of
  `SwingTracker.handleEvent` / `addCustomEvent` / `startUploadTimer` /
  `uploadEvents`.
-/

/-! ### UTF-8 byte length, mirroring TextEncoder -/

/-- Number of bytes of the UTF-8 encoding of one scalar value, as produced by
the browser's TextEncoder. -/
def utf8CharSize (c : Char) : Nat :=
  if c.toNat < 0x80 then 1
  else if c.toNat < 0x800 then 2
  else if c.toNat < 0x10000 then 3
  else 4

/-- UTF-8 byte length of a character sequence. -/
def utf8Len : List Char → Nat
  | [] => 0
  | c :: cs => utf8CharSize c + utf8Len cs

/-! ### JSON values and JSON.stringify -/

/-- JSON values: the wire format of every payload the SDK sends. Events are
treated by the transport as opaque JSON values. -/
inductive JVal where
  | jnull
  | jbool (b : Bool)
  | jnum (n : Int)
  | jstr (s : String)
  | jarr (elems : List JVal)
  | jobj (fields : List (String × JVal))

/-- Lowercase hex digit, as used by JSON.stringify for control escapes. -/
def hexDigit (n : Nat) : Char :=
  if n < 10 then Char.ofNat (48 + n) else Char.ofNat (87 + n)

/-- Escaping of a single character inside a JSON string literal, following
JSON.stringify: quote and backslash get a two-character escape, the five
named control characters get their short escapes, other control characters
get a \u00XX escape, everything else is emitted as-is. -/
def jsonEscapeChar (c : Char) : List Char :=
  if c = '"' then ['\\', '"']
  else if c = '\\' then ['\\', '\\']
  else if c.toNat = 8 then ['\\', 'b']
  else if c.toNat = 9 then ['\\', 't']
  else if c.toNat = 10 then ['\\', 'n']
  else if c.toNat = 12 then ['\\', 'f']
  else if c.toNat = 13 then ['\\', 'r']
  else if c.toNat < 32 then ['\\', 'u', '0', '0', hexDigit (c.toNat / 16), hexDigit (c.toNat % 16)]
  else [c]

/-- Escape a whole character sequence. -/
def escapeList : List Char → List Char
  | [] => []
  | c :: cs => jsonEscapeChar c ++ escapeList cs

/-- JSON string literal (with surrounding quotes) for a Lean string. -/
def strLit (s : String) : List Char := '"' :: escapeList s.data ++ ['"']

mutual

/-- JSON.stringify, producing the serialized character sequence. -/
def stringify : JVal → List Char
  | .jnull => ['n', 'u', 'l', 'l']
  | .jbool true => ['t', 'r', 'u', 'e']
  | .jbool false => ['f', 'a', 'l', 's', 'e']
  | .jnum n => (toString n).data
  | .jstr s => strLit s
  | .jarr xs => '[' :: stringifyItems xs ++ [']']
  | .jobj fs => '{' :: stringifyFields fs ++ ['}']

/-- Comma-joined serialization of array elements. -/
def stringifyItems : List JVal → List Char
  | [] => []
  | x :: xs => stringify x ++ (if xs.isEmpty then [] else ',' :: stringifyItems xs)

/-- Comma-joined serialization of object fields. -/
def stringifyFields : List (String × JVal) → List Char
  | [] => []
  | (k, v) :: fs =>
      strLit k ++ ':' :: stringify v ++ (if fs.isEmpty then [] else ',' :: stringifyFields fs)

end

/-- Serialized JSON size in bytes: the quantity
`new TextEncoder().encode(JSON.stringify(v)).length` of the source. -/
def jsize (v : JVal) : Nat := utf8Len (stringify v)

/-! ### SwingAPI.sendEventsChunked: chunking (src/api.ts) -/

/-- The `MAX_CHUNK_SIZE_BYTES = 1024 * 1024` constant of `sendEventsChunked`. -/
def MAX_CHUNK_SIZE_BYTES : Nat := 1024 * 1024

/-- The body shape the chunking loop measures:
`JSON.stringify({ sessionId, events: [...currentChunk, event] })`. -/
def eventsCheckBody (sessionId : String) (events : List JVal) : JVal :=
  .jobj [("sessionId", .jstr sessionId), ("events", .jarr events)]

/-- The body shape actually POSTed for a chunk:
`JSON.stringify({ sessionId, events: currentChunk, endUserId: userId })`.
When `userId` is `undefined`, JSON.stringify drops the field, which the
`none` case mirrors. -/
def eventsPostBody (sessionId : String) (events : List JVal) (userId : Option String) : JVal :=
  .jobj ([("sessionId", .jstr sessionId), ("events", .jarr events)] ++
    (match userId with
     | some u => [("endUserId", .jstr u)]
     | none => []))

/-- Byte size of the measured (check) body for a prospective chunk. -/
def checkSize (sessionId : String) (events : List JVal) : Nat :=
  jsize (eventsCheckBody sessionId events)

/-- Byte size of the POSTed body for a chunk. -/
def postSize (sessionId : String) (userId : Option String) (events : List JVal) : Nat :=
  jsize (eventsPostBody sessionId events userId)

/-- The chunking loop of `sendEventsChunked`: iterate over `events`, keeping a
`currentChunk`; when appending the next event would push the measured size of
`{sessionId, events}` over the limit and the current chunk is nonempty, emit
the current chunk and start a new one with that event; after the loop, emit
the remaining chunk if nonempty. The returned list is the sequence of chunks
POSTed, in order. -/
def sendChunksLoop (sessionId : String) : List JVal → List JVal → List (List JVal)
  | currentChunk, [] => if 0 < currentChunk.length then [currentChunk] else []
  | currentChunk, e :: rest =>
      let nextChunkSize := checkSize sessionId (currentChunk ++ [e])
      if MAX_CHUNK_SIZE_BYTES < nextChunkSize ∧ 0 < currentChunk.length then
        currentChunk :: sendChunksLoop sessionId [e] rest
      else
        sendChunksLoop sessionId (currentChunk ++ [e]) rest

/-- The chunks `sendEventsChunked events sessionId userId` POSTs, in order. -/
def chunksOf (sessionId : String) (events : List JVal) : List (List JVal) :=
  sendChunksLoop sessionId [] events

/-- Index of the first chunk whose POST fails (the fetch rejects or returns a
non-ok status, making `sendEventsChunked` throw), given the per-request
outcome oracle `respOk`; `none` when every chunk succeeds. -/
def firstFailureFrom (respOk : Nat → Bool) : Nat → List (List JVal) → Option Nat
  | _, [] => none
  | i, _ :: cs => if respOk i then firstFailureFrom respOk (i + 1) cs else some i

/-- First failing chunk index of a chunk sequence, if any. -/
def firstFailure (respOk : Nat → Bool) (cs : List (List JVal)) : Option Nat :=
  firstFailureFrom respOk 0 cs

/-- The event buffer after one `SwingTracker.uploadEvents` cycle
(src/tracker.ts lines 485-510). The buffer is snapshotted and cleared
synchronously (`eventsToUpload = [...this.eventBuffer]; this.eventBuffer = []`);
`appendedDuring` are the events appended while the chunked send is awaited;
on any failure the catch handler runs
`this.eventBuffer.unshift(...eventsToUpload)`, reinserting the whole snapshot
at the front. -/
def uploadEventsModel (respOk : Nat → Bool) (sessionId : String)
    (bufferAtFlush appendedDuring : List JVal) : List JVal :=
  if bufferAtFlush.isEmpty then appendedDuring
  else
    match firstFailure respOk (chunksOf sessionId bufferAtFlush) with
    | none => appendedDuring
    | some _ => bufferAtFlush ++ appendedDuring

/-- A single probe event whose own serialized size is just under the chunk
limit; the wrapper object pushes the POSTed body over the limit. -/
def oversizedProbeEvent : JVal := .jstr (String.mk (List.replicate 1048573 'a'))

/-- Boundary maximality: consecutive chunks `c, c2` satisfy: adding the first
event of `c2` to `c` would have pushed the measured size over the limit. -/
def chunkBoundaryMax (sessionId : String) (c c2 : List JVal) : Prop :=
  ∃ e es, c2 = e :: es ∧ MAX_CHUNK_SIZE_BYTES < checkSize sessionId (c ++ [e])

/-! ### SwingRedactionManager: event model (src/redaction-manager.ts)

The redaction engine inspects dynamically-typed JS values. The model below
is the closed shape space of the events the pipeline produces: every field
the source accesses is present as an optional field, and JS truthiness of
absent/empty values is modelled explicitly. `JSON.parse(JSON.stringify(e))`,
the deep clone the source performs before mutating, is the identity in this
pure model. -/

/-- Payload values carried by semantic (type-5) event payload fields. -/
inductive PValue where
  | pnull
  | pbool (b : Bool)
  | pint (n : Int)
  | pstr (s : String)
deriving DecidableEq

/-- JS truthiness of a payload value (`null`, `false`, `0`, and the empty
string are falsy). -/
def pvTruthy : PValue → Bool
  | .pnull => false
  | .pbool b => b
  | .pint n => n != 0
  | .pstr s => s != ""

/-- JS truthiness of an optionally-present string property (absent and empty
are falsy). -/
def strTruthy : Option String → Bool
  | none => false
  | some s => s != ""

/-- JS truthiness of an optionally-present numeric property (absent and `0`
are falsy); used for the `data.source` guard. -/
def sourceTruthy : Option Int → Bool
  | none => false
  | some n => n != 0

/-- First-match association-list lookup: JS property access on an object with
unique keys. -/
def assocGet {α : Type} : List (String × α) → String → Option α
  | [], _ => none
  | (k, v) :: rest, key => if k = key then some v else assocGet rest key

mutual

/-- Serialized DOM node as captured in snapshots: `tagName`, `attributes`,
`textContent`, `childNodes`, each possibly absent. -/
inductive SNode where
  | mk (tagName : Option String) (attributes : Option (List (String × String)))
      (textContent : Option String) (childNodes : Option SNodeList)

/-- List of child nodes (mutually inductive with `SNode`). -/
inductive SNodeList where
  | nil
  | cons (head : SNode) (tail : SNodeList)

end

/-- The `tagName` property of a node. -/
def SNode.tagName : SNode → Option String
  | .mk t _ _ _ => t

/-- The `attributes` property of a node. -/
def SNode.attributes : SNode → Option (List (String × String))
  | .mk _ a _ _ => a

/-- The `textContent` property of a node. -/
def SNode.textContent : SNode → Option String
  | .mk _ _ tc _ => tc

/-- The `childNodes` property of a node. -/
def SNode.childNodes : SNode → Option SNodeList
  | .mk _ _ _ ch => ch

/-- Lookup of one attribute of a node (`node.attributes.<key>`). -/
def nodeAttr (n : SNode) (key : String) : Option String :=
  match n.attributes with
  | none => none
  | some l => assocGet l key

/-- ASCII lowercasing of one character, as `toLowerCase()` behaves on the
ASCII field names and tag names this code compares. -/
def lowerChar (c : Char) : Char :=
  if 65 ≤ c.toNat ∧ c.toNat ≤ 90 then Char.ofNat (c.toNat + 32) else c

/-- ASCII lowercasing of a string. -/
def lowerStr (s : String) : String := String.mk (s.data.map lowerChar)

/-- `isRedactedField`: the fixed sensitive-attribute set, compared against
the lowercased field name. -/
def isRedactedField (fieldName : String) : Bool :=
  (["value", "data-value", "placeholder"] : List String).contains (lowerStr fieldName)

/-- One selector test of `shouldRedactNode`: `#id` exact match (when the node
has a truthy id), `.class` membership in the space-split class list (when
truthy), case-insensitive tag-name equality, or the literal
`input[type="password"]` attribute form. Each guarded branch returns its
comparison; anything else never matches. -/
def selMatches (node : SNode) (selector : String) : Bool :=
  if selector.startsWith "#" && strTruthy (nodeAttr node "id") then
    ("#" ++ ((nodeAttr node "id").getD "")) == selector
  else if selector.startsWith "." && strTruthy (nodeAttr node "class") then
    ((((nodeAttr node "class").getD "").splitOn " ").contains (selector.drop 1))
  else if strTruthy node.tagName && (lowerStr (node.tagName.getD "") == lowerStr selector) then
    true
  else if selector == "input[type=\"password\"]" && node.tagName == some "INPUT" &&
      nodeAttr node "type" == some "password" then
    true
  else
    false

/-- `shouldRedactNode`: false when the node has no attributes, otherwise true
when some configured selector matches. -/
def shouldRedactNode (rules : List String) (node : SNode) : Bool :=
  match node.attributes with
  | none => false
  | some _ => rules.any (fun selector => selMatches node selector)

/-- Masking of a matched node's text content:
`if (node.textContent) node.textContent = "***"`. -/
def maskTextContent : Option String → Option String
  | none => none
  | some s => if s != "" then some "***" else some s

/-- Masking of a matched node's attributes: every key in the sensitive set or
exactly equal to `value` has its value overwritten with `"***"` (keys are
never changed). -/
def maskNodeAttrs (l : List (String × String)) : List (String × String) :=
  l.map (fun kv => (kv.1, if isRedactedField kv.1 || kv.1 == "value" then "***" else kv.2))

mutual

/-- `redactNode`: if the node matches a selector, mask its text content and
sensitive attributes; then recurse into the child nodes. -/
def redactNode (rules : List String) : SNode → SNode
  | .mk t a tc ch =>
      let ch2 := match ch with
        | none => none
        | some l => some (redactNodeList rules l)
      if shouldRedactNode rules (.mk t a tc ch) then
        .mk t (Option.map maskNodeAttrs a) (maskTextContent tc) ch2
      else
        .mk t a tc ch2

/-- `redactNode` mapped over a child-node list (`childNodes.forEach`). -/
def redactNodeList (rules : List String) : SNodeList → SNodeList
  | .nil => .nil
  | .cons h tl => .cons (redactNode rules h) (redactNodeList rules tl)

end

/-- One entry of `data.adds` in a mutation record. -/
structure AddRecord where
  node : Option SNode

/-- One entry of `data.texts` in a mutation record. -/
structure TextRecord where
  id : Option Int
  value : Option String

/-- One entry of `data.attributes` in a mutation record. -/
structure AttrRecord where
  id : Option Int
  attributes : Option (List (String × String))

/-- The `data` object of an event: the union of every field the redaction
manager accesses, each optional (absent fields model absent JS properties). -/
structure EventData where
  node : Option SNode
  source : Option Int
  adds : Option (List AddRecord)
  texts : Option (List TextRecord)
  attributes : Option (List AttrRecord)
  text : Option String
  id : Option Int
  value : Option String
  payload : Option (List (String × PValue))

/-- An `EventData` with every field absent. -/
def emptyEventData : EventData :=
  { node := none, source := none, adds := none, texts := none, attributes := none,
    text := none, id := none, value := none, payload := none }

/-- A `SwingEvent` as built in `SwingTracker.handleEvent` / `addCustomEvent`:
`{ type, data, timestamp, delay }`. -/
structure SwingEvent where
  type : Int
  data : Option EventData
  timestamp : Int
  delay : Option Int

/-- `isActive()`: redaction runs only when at least one rule is configured. -/
def isActive (rules : List String) : Bool := decide (0 < rules.length)

/-- `shouldRedactInput`: the source returns `true` unconditionally
("Redact all inputs for safety"). -/
def shouldRedactInput (_nodeId : Option Int) : Bool := true

/-- `shouldRedactText`: the source returns `false` unconditionally
("Do not redact text by default"). -/
def shouldRedactText (_nodeId : Option Int) : Bool := false

/-- `shouldRedactAttribute`: true when any redaction fields are configured. -/
def shouldRedactAttribute (rules : List String) : Bool := decide (0 < rules.length)

/-- Redaction of one `adds` record: `if (add.node) redactNode(add.node)`. -/
def redactAddRecord (rules : List String) (a : AddRecord) : AddRecord :=
  match a.node with
  | none => a
  | some n => { a with node := some (redactNode rules n) }

/-- Redaction of one `texts` record: masked only when `shouldRedactText`. -/
def redactTextRecord (t : TextRecord) : TextRecord :=
  if shouldRedactText t.id then { t with value := some "***" } else t

/-- Attribute-record value masking: keys in the sensitive set are masked. -/
def maskSensitiveAttrEntries (l : List (String × String)) : List (String × String) :=
  l.map (fun kv => (kv.1, if isRedactedField kv.1 then "***" else kv.2))

/-- Redaction of one `attributes` record, guarded by `shouldRedactAttribute`. -/
def redactAttrRecord (rules : List String) (a : AttrRecord) : AttrRecord :=
  if shouldRedactAttribute rules then
    match a.attributes with
    | none => a
    | some l => { a with attributes := some (maskSensitiveAttrEntries l) }
  else a

/-- The `if (data.adds)` pass of `redactMutations`. -/
def redactAddsPass (rules : List String) (d : EventData) : EventData :=
  match d.adds with
  | none => d
  | some l => { d with adds := some (l.map (redactAddRecord rules)) }

/-- The `if (data.texts)` pass of `redactMutations`. -/
def redactTextsPass (d : EventData) : EventData :=
  match d.texts with
  | none => d
  | some l => { d with texts := some (l.map redactTextRecord) }

/-- The `if (data.attributes)` pass of `redactMutations`. -/
def redactAttrsPass (rules : List String) (d : EventData) : EventData :=
  match d.attributes with
  | none => d
  | some l => { d with attributes := some (l.map (redactAttrRecord rules)) }

/-- `redactMutations`: process `adds`, `texts` and `attributes` in turn, each
only when present. -/
def redactMutations (rules : List String) (d : EventData) : EventData :=
  redactAttrsPass rules (redactTextsPass (redactAddsPass rules d))

/-- `redactInputs`: `if (data.text && shouldRedactInput(data.id)) data.text = "***"`. -/
def redactInputs (d : EventData) : EventData :=
  if strTruthy d.text && shouldRedactInput d.id then { d with text := some "***" } else d

/-- `redactText`: `if (data.value && shouldRedactText(data.id)) data.value = "***"`. -/
def redactTextData (d : EventData) : EventData :=
  if strTruthy d.value && shouldRedactText d.id then { d with value := some "***" } else d

/-- The `switch (data.source)` of `redactIncrementalSnapshot`: Mutation (0),
Input (2), Text (3); Selection (5) and anything else pass through. -/
def redactIncSwitch (rules : List String) (d : EventData) : EventData :=
  match d.source with
  | none => d
  | some s =>
      if s = 0 then redactMutations rules d
      else if s = 2 then redactInputs d
      else if s = 3 then redactTextData d
      else d

/-- `redactIncrementalSnapshot`: guarded by the truthiness of `data` and of
`data.source` (so Mutation records, whose source discriminator is the falsy
`0`, never reach the switch). -/
def redactIncrementalSnapshot (rules : List String) (e : SwingEvent) : SwingEvent :=
  match e.data with
  | none => e
  | some d =>
      if sourceTruthy d.source then { e with data := some (redactIncSwitch rules d) } else e

/-- `redactFullSnapshot`: redact the root node when `data` and `data.node`
are present. -/
def redactFullSnapshot (rules : List String) (e : SwingEvent) : SwingEvent :=
  match e.data with
  | none => e
  | some d =>
      match d.node with
      | none => e
      | some n => { e with data := some { d with node := some (redactNode rules n) } }

/-- Masking of one sensitive payload field of a custom event:
`if (payload[field]) payload[field] = "***"`. -/
def maskPayloadField (p : List (String × PValue)) (field : String) : List (String × PValue) :=
  match assocGet p field with
  | none => p
  | some v =>
      if pvTruthy v then
        p.map (fun kv => (kv.1, if kv.1 = field then PValue.pstr "***" else kv.2))
      else p

/-- The fixed `sensitiveFields` list of `redactCustomEvent`. -/
def sensitivePayloadFields : List String := ["buttonText", "linkText", "message"]

/-- `redactCustomEvent`: when `data.payload` is present, mask the fixed
sensitive fields in order. -/
def redactCustomEvent (e : SwingEvent) : SwingEvent :=
  match e.data with
  | none => e
  | some d =>
      match d.payload with
      | none => e
      | some p =>
          let masked := sensitivePayloadFields.foldl maskPayloadField p
          { e with data := some { d with payload := some masked } }

/-- `processEvent`: the redaction entry point. Returns the event unchanged
when no rules are configured; otherwise dispatches on the event type
(3 = IncrementalSnapshot, 2 = FullSnapshot, 5 = custom/semantic). -/
def processEvent (rules : List String) (e : SwingEvent) : SwingEvent :=
  if !(isActive rules) then e
  else if e.type = 3 then redactIncrementalSnapshot rules e
  else if e.type = 2 then redactFullSnapshot rules e
  else if e.type = 5 then redactCustomEvent e
  else e

/-- The tracker's event buffer of typed events. -/
structure TrackerEventBuffer where
  events : List SwingEvent

/-- `SwingTracker.addCustomEvent` (src/tracker.ts lines 474-483): pushes the
semantic event into the buffer directly — no redaction, no batch-size
check. -/
def addCustomEvent (st : TrackerEventBuffer) (customEvent : SwingEvent) : TrackerEventBuffer :=
  { st with events := st.events ++ [customEvent] }

/-- Payload field accessor of an event. -/
def eventPayloadField (e : SwingEvent) (f : String) : Option PValue :=
  match e.data with
  | none => none
  | some d =>
      match d.payload with
      | none => none
      | some p => assocGet p f

/-- Payload of a concrete semantic button-click event with an unmasked
`buttonText`, as synthesized by `setupAutomaticButtonTracking`. -/
def buttonClickProbePayload : List (String × PValue) :=
  [("eventType", .pstr "button_clicked"), ("buttonText", .pstr "secret"),
   ("page", .pstr "/checkout")]

/-- The probe event itself (type 5, payload as above). -/
def buttonClickProbeEvent : SwingEvent :=
  { type := 5,
    data := some { emptyEventData with payload := some buttonClickProbePayload },
    timestamp := 0, delay := none }

/-! ### Console wrappers (SwingTracker.enableConsoleTracking) -/

/-- `String(arg)` / `JSON.stringify(arg)` as applied per argument by
`trackConsoleEvent`: objects, arrays and `null` (`typeof null` is
`"object"`) are stringified; strings pass through; numbers and booleans are
converted with `String(...)`. -/
def formatArg : JVal → String
  | .jobj fs => String.mk (stringify (.jobj fs))
  | .jarr xs => String.mk (stringify (.jarr xs))
  | .jnull => String.mk (stringify .jnull)
  | .jstr s => s
  | .jnum n => toString n
  | .jbool b => if b then "true" else "false"

/-- The message `trackConsoleEvent` builds: arguments formatted and joined
with single spaces. -/
def consoleMessage (args : List JVal) : String :=
  String.intercalate " " (args.map formatArg)

/-- Observable steps of one wrapped console call: enqueueing the semantic
console event into the buffer, or invoking the saved original console
function with the original arguments. -/
inductive ConsoleStep where
  | enqueue (level : String) (message : String)
  | callOriginal (level : String) (args : List JVal)

/-- One call to a wrapped console entry point (log/warn/error): the wrapper
body is `this.trackConsoleEvent(level, args); this.originalConsole[level](...args);`
— it enqueues first, then forwards. -/
def wrappedConsoleCall (level : String) (args : List JVal) : List ConsoleStep :=
  [ConsoleStep.enqueue level (consoleMessage args), ConsoleStep.callOriginal level args]

/-- Recognizer for the forwarding step. -/
def isCallOriginal : ConsoleStep → Bool
  | .callOriginal _ _ => true
  | _ => false

/-- Recognizer for the enqueue step. -/
def isEnqueue : ConsoleStep → Bool
  | .enqueue _ _ => true
  | _ => false

/-- The ordering property claimed of the wrappers: some forwarding step
strictly precedes some enqueue step. -/
def forwardsBeforeEnqueue (steps : List ConsoleStep) : Prop :=
  ∃ (i j : Nat), i < j ∧ (∃ s, steps[i]? = some s ∧ isCallOriginal s = true) ∧
    (∃ s, steps[j]? = some s ∧ isEnqueue s = true)

/-! ### SwingSessionManager (src/session-manager.ts)

The browser's cookie jar (`document.cookie` assignment adds or replaces one
cookie) and localStorage are modelled as association lists; cookies carry
their expiry timestamp. -/

/-- Set-or-replace in an association list (localStorage.setItem / cookie
jar update). -/
def assocSet {α : Type} : List (String × α) → String → α → List (String × α)
  | [], k, v => [(k, v)]
  | (k2, v2) :: rest, k, v =>
      if k2 = k then (k, v) :: rest else (k2, v2) :: assocSet rest k v

/-- The two client-side stores: cookie jar (name, value, expiry millis) and
localStorage (name, value). -/
structure BrowserStore where
  cookies : List (String × String × Int)
  localStore : List (String × String)

/-- localStorage.getItem. -/
def lsGet (st : BrowserStore) (k : String) : Option String := assocGet st.localStore k

/-- Cookie-jar lookup by name: value and expiry. -/
def cookieGet (st : BrowserStore) (name : String) : Option (String × Int) :=
  assocGet st.cookies name

/-- `getCookie`: read the cookie first, fall back to localStorage. -/
def getCookieM (st : BrowserStore) (name : String) : Option String :=
  match cookieGet st name with
  | some vp => some vp.1
  | none => lsGet st name

/-- `setCookie(name, value, days)`: write the cookie with expiry
`now + days*24*60*60*1000` and back the value up in localStorage. -/
def setCookieM (st : BrowserStore) (name value : String) (days : Int) (now : Int) :
    BrowserStore :=
  { cookies := assocSet st.cookies name (value, now + days * (24 * 60 * 60 * 1000)),
    localStore := assocSet st.localStore name value }

/-- `updateActivity()`: store `Date.now().toString()` under the unscoped
last-activity key. -/
def updateActivity (now : Int) (st : BrowserStore) : BrowserStore :=
  { st with localStore := assocSet st.localStore "swing_last_activity" (toString now) }

/-- JS `parseInt` restricted to the decimal strings this store writes:
longest leading digit run; no digits parse to NaN, modelled as `none`
(every comparison against NaN is false). -/
def parseJSInt (s : String) : Option Int :=
  let ds := s.data.takeWhile (fun c => 48 ≤ c.toNat ∧ c.toNat ≤ 57)
  if ds.isEmpty then none
  else some (ds.foldl (fun n c => n * 10 + ((c.toNat : Int) - 48)) 0)

/-- `isSessionValid(lastActivity)`: false when the stored value is absent or
falsy; otherwise the parsed timestamp must be strictly newer than
`now - 30*60*1000`. -/
def isSessionValid (now : Int) (lastActivity : Option String) : Bool :=
  match lastActivity with
  | none => false
  | some la =>
      if la = "" then false
      else
        match parseJSInt la with
        | none => false
        | some t => decide (t > now - 30 * 60 * 1000)

/-- `generateSessionId()`: `swing_<Date.now()>_<random>`. -/
def generateSessionId (now : Int) (rand : String) : String :=
  "swing_" ++ toString now ++ "_" ++ rand

/-- `getOrCreateSession()`: reuse the stored session id if present (truthy)
and the last-activity timestamp is within the 30-minute window; otherwise
mint a fresh id and persist it with a 1-day expiry via `setCookie` (cookie
plus localStorage backup). -/
def getOrCreateSession (apiKey : String) (now : Int) (rand : String)
    (st : BrowserStore) : String × BrowserStore :=
  match getCookieM st ("swing_session_" ++ apiKey) with
  | some sid =>
      if sid ≠ "" ∧ isSessionValid now (lsGet st "swing_last_activity") = true then (sid, st)
      else
        (generateSessionId now rand,
          setCookieM st ("swing_session_" ++ apiKey) (generateSessionId now rand) 1 now)
  | none =>
      (generateSessionId now rand,
        setCookieM st ("swing_session_" ++ apiKey) (generateSessionId now rand) 1 now)

/-! ### Tracker event-loop scheduler (buffer, flushes, completions)

Events are identified by the order in which they were appended (token =
sequence number). A flush's synchronous prefix — snapshot and clear, with no
`await` between them (`uploadEvents` lines 488-489) — is one atomic step
that moves the buffer into an in-flight task; a completion step resolves the
awaited chunked send: on success the snapshot is delivered, on failure the
catch handler unshifts it back onto the front of the buffer. The timer tick
(`startUploadTimer`) and the `maxBatchSize` check in `handleEvent` start
flushes; `addCustomEvent` appends without a threshold check. Nothing in the
source guards against starting a flush while another is in flight. -/

/-- Scheduler actions: a raw recording event (through `handleEvent`), a
semantic event (through `addCustomEvent`), a flush-timer tick, and the
completion (success or failure) of the in-flight send at index `i`. -/
inductive SchedAct where
  | raw
  | custom
  | tick
  | complete (i : Nat) (ok : Bool)

/-- Scheduler state: the event buffer, the snapshots of in-flight sends, the
events of completed successful sends, the drained batches in order, and the
next event token. -/
structure SchedState where
  buffer : List Nat
  inFlight : List (List Nat)
  delivered : List Nat
  flushLog : List (List Nat)
  nextId : Nat

/-- Initial scheduler state. -/
def schedInit : SchedState := ⟨[], [], [], [], 0⟩

/-- The synchronous prefix of `uploadEvents`: early-return on empty buffer,
otherwise snapshot and clear atomically and record the new in-flight send. -/
def startFlush (st : SchedState) : SchedState :=
  if st.buffer.isEmpty then st
  else
    { st with
      buffer := [],
      inFlight := st.inFlight ++ [st.buffer],
      flushLog := st.flushLog ++ [st.buffer] }

/-- `handleEvent`: push the (redacted) raw event, then flush immediately if
the buffer has reached `maxBatchSize`. -/
def handleRawEvent (maxBatchSize : Nat) (st : SchedState) : SchedState :=
  let st1 := { st with buffer := st.buffer ++ [st.nextId], nextId := st.nextId + 1 }
  if maxBatchSize ≤ st1.buffer.length then startFlush st1 else st1

/-- `addCustomEvent`: push the semantic event; no threshold check. -/
def addCustomEventSched (st : SchedState) : SchedState :=
  { st with buffer := st.buffer ++ [st.nextId], nextId := st.nextId + 1 }

/-- One `setInterval` tick of `startUploadTimer`: flush when nonempty. -/
def timerTick (st : SchedState) : SchedState :=
  if st.buffer.isEmpty then st else startFlush st

/-- Completion of the in-flight send at index `i`: delivered on success;
on failure the whole snapshot is unshifted onto the buffer front. -/
def completeFlush (i : Nat) (ok : Bool) (st : SchedState) : SchedState :=
  match st.inFlight[i]? with
  | none => st
  | some snapshot =>
      if ok then
        { st with inFlight := st.inFlight.eraseIdx i, delivered := st.delivered ++ snapshot }
      else
        { st with inFlight := st.inFlight.eraseIdx i, buffer := snapshot ++ st.buffer }

/-- One scheduler step. -/
def schedStep (maxBatchSize : Nat) (st : SchedState) : SchedAct → SchedState
  | .raw => handleRawEvent maxBatchSize st
  | .custom => addCustomEventSched st
  | .tick => timerTick st
  | .complete i ok => completeFlush i ok st

/-- Run an action sequence from the initial state. -/
def schedRun (maxBatchSize : Nat) (acts : List SchedAct) : SchedState :=
  acts.foldl (schedStep maxBatchSize) schedInit

/-- Conservation invariant: every appended event is, at any time, in exactly
one place — the buffer, exactly one in-flight snapshot, or delivered. -/
def schedInv (st : SchedState) : Prop :=
  (st.buffer : Multiset Nat) + (st.inFlight.flatten : Multiset Nat) +
    (st.delivered : Multiset Nat) = ((List.range st.nextId : List Nat) : Multiset Nat)

/-! ### Lemmas: serializer sizes -/

@[simp]
theorem utf8Len_nil : utf8Len [] = 0 := rfl

@[simp]
theorem utf8Len_cons (c : Char) (cs : List Char) :
    utf8Len (c :: cs) = utf8CharSize c + utf8Len cs := rfl

@[simp]
theorem utf8Len_append (a b : List Char) :
    utf8Len (a ++ b) = utf8Len a + utf8Len b := by
  induction a with
  | nil => simp
  | cons c cs ih => simp [ih, Nat.add_assoc]

theorem escapeList_replicate_a (n : Nat) :
    utf8Len (escapeList (List.replicate n 'a')) = n := by
  induction n with
  | zero => rfl
  | succ n ih =>
      have ha : jsonEscapeChar 'a' = ['a'] := by decide
      have hs : utf8CharSize 'a' = 1 := by decide
      simp only [List.replicate_succ, escapeList, ha, ih, hs, List.cons_append,
        List.nil_append, utf8Len_cons]
      omega

theorem stringify_probe : stringify oversizedProbeEvent =
    ('"' :: escapeList (List.replicate 1048573 'a')) ++ ['"'] := by
  simp only [oversizedProbeEvent, stringify, strLit]

theorem jsize_probe : jsize oversizedProbeEvent = 1048575 := by
  have h2 : utf8Len (escapeList (List.replicate 1048573 'a')) = 1048573 :=
    escapeList_replicate_a 1048573
  have hq : utf8CharSize '"' = 1 := by decide
  rw [jsize, stringify_probe]
  rw [utf8Len_append, utf8Len_cons, utf8Len_cons, utf8Len_nil, h2, hq]

/-! ### Lemmas: chunking structure -/

theorem sendChunksLoop_join (sessionId : String) :
    ∀ (rest currentChunk : List JVal),
      List.flatten (sendChunksLoop sessionId currentChunk rest) = currentChunk ++ rest := by
  intro rest
  induction rest with
  | nil =>
      intro currentChunk
      by_cases h : 0 < currentChunk.length
      · simp [sendChunksLoop, h]
      · have : currentChunk = [] := List.length_eq_zero.mp (Nat.eq_zero_of_not_pos h)
        simp [sendChunksLoop, h, this]
  | cons e rest ih =>
      intro currentChunk
      by_cases h : MAX_CHUNK_SIZE_BYTES < checkSize sessionId (currentChunk ++ [e]) ∧
          0 < currentChunk.length
      · simp [sendChunksLoop, h, ih]
      · simp [sendChunksLoop, h, ih]

theorem chunksOf_join (sessionId : String) (events : List JVal) :
    List.flatten (chunksOf sessionId events) = events := by
  simpa using sendChunksLoop_join sessionId events []

theorem sendChunksLoop_ne_nil (sessionId : String) :
    ∀ (rest currentChunk : List JVal),
      ∀ c ∈ sendChunksLoop sessionId currentChunk rest, c ≠ [] := by
  intro rest
  induction rest with
  | nil =>
      intro currentChunk c hc
      by_cases h : 0 < currentChunk.length
      · simp [sendChunksLoop, h] at hc
        subst hc
        exact List.ne_nil_of_length_pos h
      · simp [sendChunksLoop, h] at hc
  | cons e rest ih =>
      intro currentChunk c hc
      by_cases h : MAX_CHUNK_SIZE_BYTES < checkSize sessionId (currentChunk ++ [e]) ∧
          0 < currentChunk.length
      · simp [sendChunksLoop, h] at hc
        rcases hc with hc | hc
        · subst hc; exact List.ne_nil_of_length_pos h.2
        · exact ih [e] c hc
      · simp [sendChunksLoop, h] at hc
        exact ih (currentChunk ++ [e]) c hc

theorem sendChunksLoop_size_bound (sessionId : String) :
    ∀ (rest currentChunk : List JVal),
      (currentChunk = [] ∨ checkSize sessionId currentChunk ≤ MAX_CHUNK_SIZE_BYTES ∨
        currentChunk.length = 1) →
      ∀ c ∈ sendChunksLoop sessionId currentChunk rest,
        checkSize sessionId c ≤ MAX_CHUNK_SIZE_BYTES ∨ c.length = 1 := by
  intro rest
  induction rest with
  | nil =>
      intro currentChunk hinv c hc
      by_cases h : 0 < currentChunk.length
      · simp [sendChunksLoop, h] at hc
        subst hc
        rcases hinv with h0 | h0
        · exact absurd (h0 ▸ h) (by simp)
        · exact h0
      · simp [sendChunksLoop, h] at hc
  | cons e rest ih =>
      intro currentChunk hinv c hc
      by_cases h : MAX_CHUNK_SIZE_BYTES < checkSize sessionId (currentChunk ++ [e]) ∧
          0 < currentChunk.length
      · simp [sendChunksLoop, h] at hc
        rcases hc with hc | hc
        · subst hc
          rcases hinv with h0 | h0
          · exact absurd (h0 ▸ h.2) (by simp)
          · exact h0
        · exact ih [e] (Or.inr (Or.inr rfl)) c hc
      · simp [sendChunksLoop, h] at hc
        rcases Decidable.not_and_iff_or_not.mp h with h1 | h2
        · exact ih (currentChunk ++ [e]) (Or.inr (Or.inl (Nat.le_of_not_lt h1))) c hc
        · have : currentChunk = [] :=
            List.length_eq_zero.mp (Nat.eq_zero_of_not_pos h2)
          subst this
          exact ih [e] (Or.inr (Or.inr rfl)) c hc

theorem sendChunksLoop_head (sessionId : String) :
    ∀ (rest currentChunk : List JVal), currentChunk ≠ [] →
      ∃ c cs, sendChunksLoop sessionId currentChunk rest = c :: cs ∧
        c.head? = currentChunk.head? := by
  intro rest
  induction rest with
  | nil =>
      intro currentChunk hne
      have h : 0 < currentChunk.length := List.length_pos.mpr hne
      exact ⟨currentChunk, [], by simp [sendChunksLoop, h], rfl⟩
  | cons e rest ih =>
      intro currentChunk hne
      by_cases h : MAX_CHUNK_SIZE_BYTES < checkSize sessionId (currentChunk ++ [e]) ∧
          0 < currentChunk.length
      · exact ⟨currentChunk, sendChunksLoop sessionId [e] rest, by simp [sendChunksLoop, h], rfl⟩
      · obtain ⟨c, cs, heq, hhead⟩ := ih (currentChunk ++ [e]) (by simp)
        refine ⟨c, cs, by simp [sendChunksLoop, h, heq], ?_⟩
        rw [hhead]
        cases currentChunk with
        | nil => exact absurd rfl hne
        | cons x xs => simp

set_option maxHeartbeats 2000000 in
theorem sendChunksLoop_chain (sessionId : String) :
    ∀ (rest currentChunk : List JVal),
      List.Chain' (chunkBoundaryMax sessionId) (sendChunksLoop sessionId currentChunk rest) := by
  intro rest
  induction rest with
  | nil =>
      intro currentChunk
      by_cases h : 0 < currentChunk.length
      · simp [sendChunksLoop, h]
      · simp [sendChunksLoop, h]
  | cons e rest ih =>
      intro currentChunk
      rcases Classical.em (MAX_CHUNK_SIZE_BYTES < checkSize sessionId (currentChunk ++ [e]) ∧
          0 < currentChunk.length) with h | h
      · rw [show sendChunksLoop sessionId currentChunk (e :: rest) =
            currentChunk :: sendChunksLoop sessionId [e] rest from by
          simp [sendChunksLoop, h]]
        rw [List.chain'_cons']
        constructor
        · intro y hy
          obtain ⟨c, cs, heq, hhead⟩ := sendChunksLoop_head sessionId rest [e] (by simp)
          rw [heq] at hy
          simp at hy
          subst hy
          simp at hhead
          rcases c with _ | ⟨x, xs⟩
          · simp at hhead
          · simp at hhead
            exact ⟨e, xs, by rw [hhead], h.1⟩
        · exact ih [e]
      · rw [show sendChunksLoop sessionId currentChunk (e :: rest) =
            sendChunksLoop sessionId (currentChunk ++ [e]) rest from by
          simp [sendChunksLoop, h]]
        exact ih (currentChunk ++ [e])

theorem chunksOf_single (sessionId : String) (e : JVal) :
    chunksOf sessionId [e] = [[e]] := by
  have h : ¬ (MAX_CHUNK_SIZE_BYTES < checkSize sessionId ([] ++ [e]) ∧
      0 < ([] : List JVal).length) := by simp
  simp [chunksOf, sendChunksLoop, h]

theorem chunksOf_nil (sessionId : String) : chunksOf sessionId [] = [] := rfl

theorem postSize_none (sessionId : String) (events : List JVal) :
    postSize sessionId none events = checkSize sessionId events := rfl

theorem stringify_obj2 (k1 k2 : String) (v1 v2 : JVal) :
    stringify (.jobj [(k1, v1), (k2, v2)]) =
      '{' :: (strLit k1 ++ ':' :: stringify v1 ++
        (',' :: (strLit k2 ++ ':' :: stringify v2 ++ []))) ++ ['}'] := by
  simp [stringify, stringifyFields]

theorem stringify_arr1 (v : JVal) :
    stringify (.jarr [v]) = '[' :: (stringify v ++ []) ++ [']'] := by
  simp [stringify, stringifyItems]

theorem checkSize_s_single (e : JVal) : checkSize "s" [e] = 29 + jsize e := by
  have hA : utf8Len (strLit "sessionId") = 11 := by decide
  have hB : utf8Len (stringify (JVal.jstr "s")) = 3 := by decide
  have hC : utf8Len (strLit "events") = 8 := by decide
  have hcol : utf8CharSize ':' = 1 := by decide
  have hcom : utf8CharSize ',' = 1 := by decide
  have hob : utf8CharSize '{' = 1 := by decide
  have hcb : utf8CharSize '}' = 1 := by decide
  have hlb : utf8CharSize '[' = 1 := by decide
  have hrb : utf8CharSize ']' = 1 := by decide
  rw [checkSize, eventsCheckBody, jsize, stringify_obj2, stringify_arr1]
  simp only [utf8Len_append, utf8Len_cons, utf8Len_nil, hA, hB, hC, hcol, hcom,
    hob, hcb, hlb, hrb, jsize]
  omega

/-- C2, claim as stated (counterexample): it is not the case that every chunk
POSTed by `sendEventsChunked` has serialized JSON size at most 1,048,576
bytes except a singleton chunk whose event alone exceeds the bound. A single
event of serialized size 1,048,575 (within the bound) is emitted as one
chunk whose POSTed body, which adds the `{"sessionId":...,"events":[...]}`
wrapper, is 1,048,604 bytes — over the bound — while the event alone is not
over the bound, so neither disjunct of the claimed property holds. -/
theorem sendEventsChunked_size_claim_false :
    ¬ (∀ c ∈ chunksOf "s" [oversizedProbeEvent],
        postSize "s" none c ≤ MAX_CHUNK_SIZE_BYTES ∨
        ∃ e, c = [e] ∧ MAX_CHUNK_SIZE_BYTES < jsize e) := by
  intro hclaim
  have hc : [oversizedProbeEvent] ∈ chunksOf "s" [oversizedProbeEvent] := by
    rw [chunksOf_single]
    exact List.mem_singleton.mpr rfl
  have hsz : checkSize "s" [oversizedProbeEvent] = 1048604 := by
    rw [checkSize_s_single, jsize_probe]
  rcases hclaim _ hc with h | ⟨e, he, hbig⟩
  · rw [postSize_none, hsz] at h
    have : (1048604 : Nat) ≤ 1024 * 1024 := h
    omega
  · have he2 : e = oversizedProbeEvent := by
      have := congrArg List.head? he
      simpa using this.symm
    rw [he2, jsize_probe] at hbig
    have : (1024 * 1024 : Nat) < 1048575 := hbig
    omega

/-- C2 (amended): the chunks produced by `sendEventsChunked` partition the
event list in order; no chunk is empty; every chunk satisfies the bound the
code actually enforces — the serialized size of the measured
`{sessionId, events}` wrapper is at most 1,048,576 bytes — except chunks
consisting of exactly one event, which may exceed it (a single event is
never split); and each chunk is maximal: appending the first event of the
next chunk would push the measured size over the limit. (The original
claim's size bound on the POSTed body, whose exception clause covers only a
lone event whose own size exceeds the bound, fails by the wrapper overhead;
see the counterexample.) -/
theorem sendEventsChunked_chunk_bounds (sessionId : String) (events : List JVal) :
    List.flatten (chunksOf sessionId events) = events ∧
    (∀ c ∈ chunksOf sessionId events, c ≠ []) ∧
    (∀ c ∈ chunksOf sessionId events,
      checkSize sessionId c ≤ MAX_CHUNK_SIZE_BYTES ∨ c.length = 1) ∧
    List.Chain' (chunkBoundaryMax sessionId) (chunksOf sessionId events) :=
  ⟨chunksOf_join sessionId events,
   fun c hc => sendChunksLoop_ne_nil sessionId events [] c hc,
   fun c hc => sendChunksLoop_size_bound sessionId events [] (Or.inl rfl) c hc,
   sendChunksLoop_chain sessionId events []⟩

/-- C1: when a chunked send fails (some chunk's POST rejects or returns a
non-success status), the whole snapshot passed to `sendEventsChunked` —
including the events of chunks already delivered before the failure, which
are a prefix of that snapshot — is reinserted at the front of the event
buffer ahead of everything appended during the send, and a subsequent
successful flush, which sends chunks in order, puts all of them on the wire
before any event enqueued after the failed attempt. -/
theorem uploadEvents_requeue_restores_order (respOk : Nat → Bool) (sessionId : String)
    (bufferAtFlush appendedDuring : List JVal) (k : Nat)
    (hfail : firstFailure respOk (chunksOf sessionId bufferAtFlush) = some k) :
    uploadEventsModel respOk sessionId bufferAtFlush appendedDuring =
      bufferAtFlush ++ appendedDuring ∧
    (∃ tail, List.flatten ((chunksOf sessionId bufferAtFlush).take k) ++ tail =
      bufferAtFlush) ∧
    List.flatten (chunksOf sessionId (bufferAtFlush ++ appendedDuring)) =
      bufferAtFlush ++ appendedDuring := by
  have hb : bufferAtFlush ≠ [] := by
    intro hnil
    rw [hnil, chunksOf_nil] at hfail
    simp [firstFailure, firstFailureFrom] at hfail
  refine ⟨?_, ?_, chunksOf_join sessionId (bufferAtFlush ++ appendedDuring)⟩
  · simp only [uploadEventsModel, hfail]
    rw [if_neg (by simpa [List.isEmpty_iff] using hb)]
  · refine ⟨List.flatten ((chunksOf sessionId bufferAtFlush).drop k), ?_⟩
    rw [← List.flatten_append, List.take_append_drop]
    exact chunksOf_join sessionId bufferAtFlush

/-- Witness for C1 at a concrete input: one buffered event, every request
failing, one event appended during the send. -/
theorem uploadEvents_requeue_restores_order_witness :
    uploadEventsModel (fun _ => false) "s" [JVal.jnull] [JVal.jbool true] =
      [JVal.jnull] ++ [JVal.jbool true] ∧
    (∃ tail, List.flatten ((chunksOf "s" [JVal.jnull]).take 0) ++ tail =
      [JVal.jnull]) ∧
    List.flatten (chunksOf "s" ([JVal.jnull] ++ [JVal.jbool true])) =
      [JVal.jnull] ++ [JVal.jbool true] :=
  uploadEvents_requeue_restores_order (fun _ => false) "s" [JVal.jnull] [JVal.jbool true] 0
    (by rw [chunksOf_single]; rfl)

/-! ### Lemmas: redaction engine -/

@[simp]
theorem SNode.tagName_mk (t : Option String) (a : Option (List (String × String)))
    (tc : Option String) (ch : Option SNodeList) : (SNode.mk t a tc ch).tagName = t := rfl

@[simp]
theorem SNode.attributes_mk (t : Option String) (a : Option (List (String × String)))
    (tc : Option String) (ch : Option SNodeList) : (SNode.mk t a tc ch).attributes = a := rfl

@[simp]
theorem SNode.textContent_mk (t : Option String) (a : Option (List (String × String)))
    (tc : Option String) (ch : Option SNodeList) : (SNode.mk t a tc ch).textContent = tc := rfl

@[simp]
theorem SNode.childNodes_mk (t : Option String) (a : Option (List (String × String)))
    (tc : Option String) (ch : Option SNodeList) : (SNode.mk t a tc ch).childNodes = ch := rfl

theorem listAnyCongr {α : Type} (l : List α) (f g : α → Bool)
    (h : ∀ x ∈ l, f x = g x) : l.any f = l.any g := by
  induction l with
  | nil => rfl
  | cons x xs ih =>
      simp only [List.any_cons]
      rw [h x (by simp), ih (fun y hy => h y (by simp [hy]))]

theorem listMapSelf {α : Type} (l : List α) (f : α → α) (h : ∀ x ∈ l, f x = x) :
    l.map f = l := by
  induction l with
  | nil => rfl
  | cons x xs ih =>
      simp only [List.map_cons]
      rw [h x (by simp), ih (fun y hy => h y (by simp [hy]))]

theorem assocGet_map_entry {α β : Type} (f : String → α → β) (l : List (String × α))
    (key : String) :
    assocGet (l.map (fun kv => (kv.1, f kv.1 kv.2))) key = (assocGet l key).map (f key) := by
  induction l with
  | nil => rfl
  | cons kv rest ih =>
      obtain ⟨k, v⟩ := kv
      by_cases hk : k = key
      · subst hk
        simp [assocGet]
      · simp [assocGet, hk, ih]

theorem map_entry_idem {α : Type} (g : String → α → α) (hg : ∀ k v, g k (g k v) = g k v)
    (l : List (String × α)) :
    (l.map (fun kv => (kv.1, g kv.1 kv.2))).map (fun kv => (kv.1, g kv.1 kv.2)) =
      l.map (fun kv => (kv.1, g kv.1 kv.2)) := by
  rw [List.map_map]
  apply List.map_congr_left
  intro kv _
  simp [Function.comp, hg]

theorem maskNodeAttrs_idem (l : List (String × String)) :
    maskNodeAttrs (maskNodeAttrs l) = maskNodeAttrs l := by
  unfold maskNodeAttrs
  apply map_entry_idem (fun k v => if isRedactedField k || k == "value" then "***" else v)
  intro k v
  by_cases h : (isRedactedField k || k == "value") = true
  · simp [h]
  · simp [eq_false_of_ne_true h]

theorem maskTextContent_idem (tc : Option String) :
    maskTextContent (maskTextContent tc) = maskTextContent tc := by
  cases tc with
  | none => rfl
  | some s =>
      by_cases h : s = ""
      · subst h; rfl
      · simp [maskTextContent, h]

theorem nodeAttr_mask (t : Option String) (a : Option (List (String × String)))
    (tc tc2 : Option String) (ch ch2 : Option SNodeList) (key : String)
    (hcond : (isRedactedField key || key == "value") = false) :
    nodeAttr (.mk t (Option.map maskNodeAttrs a) tc2 ch2) key =
      nodeAttr (.mk t a tc ch) key := by
  cases a with
  | none => rfl
  | some l =>
      simp only [nodeAttr, SNode.attributes_mk, Option.map_some', maskNodeAttrs]
      rw [assocGet_map_entry (fun k v => if isRedactedField k || k == "value" then "***" else v)]
      cases assocGet l key with
      | none => rfl
      | some v => simp [hcond]

theorem selMatches_mask (t : Option String) (a : Option (List (String × String)))
    (tc tc2 : Option String) (ch ch2 : Option SNodeList) (sel : String) :
    selMatches (.mk t (Option.map maskNodeAttrs a) tc2 ch2) sel =
      selMatches (.mk t a tc ch) sel := by
  have hid := nodeAttr_mask t a tc tc2 ch ch2 "id" (by decide)
  have hcl := nodeAttr_mask t a tc tc2 ch ch2 "class" (by decide)
  have hty := nodeAttr_mask t a tc tc2 ch ch2 "type" (by decide)
  simp only [selMatches, hid, hcl, hty, SNode.tagName_mk]

theorem shouldRedactNode_ignores_rest (rules : List String) (t : Option String)
    (a : Option (List (String × String))) (tc tc2 : Option String)
    (ch ch2 : Option SNodeList) :
    shouldRedactNode rules (.mk t a tc2 ch2) = shouldRedactNode rules (.mk t a tc ch) := rfl

theorem shouldRedactNode_mask (rules : List String) (t : Option String)
    (a : Option (List (String × String))) (tc tc2 : Option String)
    (ch ch2 : Option SNodeList) :
    shouldRedactNode rules (.mk t (Option.map maskNodeAttrs a) tc2 ch2) =
      shouldRedactNode rules (.mk t a tc ch) := by
  cases a with
  | none => rfl
  | some l =>
      simp only [shouldRedactNode, SNode.attributes_mk, Option.map_some']
      exact listAnyCongr rules _ _ (fun sel _ => by
        have h := selMatches_mask t (some l) tc tc2 ch ch2 sel
        simpa using h)


mutual

theorem redactNode_idem (rules : List String) : (n : SNode) →
    redactNode rules (redactNode rules n) = redactNode rules n
  | .mk t a tc none => by
      have hattr : Option.map maskNodeAttrs (Option.map maskNodeAttrs a) =
          Option.map maskNodeAttrs a := by
        cases a with
        | none => rfl
        | some l => simp [maskNodeAttrs_idem]
      cases hs : shouldRedactNode rules (SNode.mk t a tc none) with
      | true =>
          have e1 : redactNode rules (SNode.mk t a tc none) =
              SNode.mk t (Option.map maskNodeAttrs a) (maskTextContent tc) none := by
            simp [redactNode, hs]
          have hs2 : shouldRedactNode rules
              (SNode.mk t (Option.map maskNodeAttrs a) (maskTextContent tc) none) = true := by
            rw [shouldRedactNode_mask rules t a tc (maskTextContent tc) none none]
            exact hs
          have e2 : redactNode rules
              (SNode.mk t (Option.map maskNodeAttrs a) (maskTextContent tc) none) =
              SNode.mk t (Option.map maskNodeAttrs (Option.map maskNodeAttrs a))
                (maskTextContent (maskTextContent tc)) none := by
            simp [redactNode, hs2]
          rw [e1, e2, maskTextContent_idem, hattr]
      | false =>
          have e1 : redactNode rules (SNode.mk t a tc none) = SNode.mk t a tc none := by
            simp [redactNode, hs]
          rw [e1]
          exact e1
  | .mk t a tc (some l) => by
      have hl := redactNodeList_idem rules l
      have hattr : Option.map maskNodeAttrs (Option.map maskNodeAttrs a) =
          Option.map maskNodeAttrs a := by
        cases a with
        | none => rfl
        | some l2 => simp [maskNodeAttrs_idem]
      cases hs : shouldRedactNode rules (SNode.mk t a tc (some l)) with
      | true =>
          have e1 : redactNode rules (SNode.mk t a tc (some l)) =
              SNode.mk t (Option.map maskNodeAttrs a) (maskTextContent tc)
                (some (redactNodeList rules l)) := by
            simp [redactNode, hs]
          have hs2 : shouldRedactNode rules (SNode.mk t (Option.map maskNodeAttrs a)
              (maskTextContent tc) (some (redactNodeList rules l))) = true := by
            rw [shouldRedactNode_mask rules t a tc (maskTextContent tc) (some l)
              (some (redactNodeList rules l))]
            exact hs
          have e2 : redactNode rules (SNode.mk t (Option.map maskNodeAttrs a)
              (maskTextContent tc) (some (redactNodeList rules l))) =
              SNode.mk t (Option.map maskNodeAttrs (Option.map maskNodeAttrs a))
                (maskTextContent (maskTextContent tc))
                (some (redactNodeList rules (redactNodeList rules l))) := by
            simp [redactNode, hs2]
          rw [e1, e2, hl, maskTextContent_idem, hattr]
      | false =>
          have e1 : redactNode rules (SNode.mk t a tc (some l)) =
              SNode.mk t a tc (some (redactNodeList rules l)) := by
            simp [redactNode, hs]
          have hs2 : shouldRedactNode rules
              (SNode.mk t a tc (some (redactNodeList rules l))) = false := by
            rw [shouldRedactNode_ignores_rest rules t a tc tc (some l)
              (some (redactNodeList rules l))]
            exact hs
          have e2 : redactNode rules (SNode.mk t a tc (some (redactNodeList rules l))) =
              SNode.mk t a tc (some (redactNodeList rules (redactNodeList rules l))) := by
            simp [redactNode, hs2]
          rw [e1, e2, hl]

theorem redactNodeList_idem (rules : List String) : (l : SNodeList) →
    redactNodeList rules (redactNodeList rules l) = redactNodeList rules l
  | .nil => rfl
  | .cons h tl => by
      simp only [redactNodeList]
      rw [redactNode_idem rules h, redactNodeList_idem rules tl]

end

theorem assocGet_mem {α : Type} (p : List (String × α)) (f : String) (v : α)
    (h : assocGet p f = some v) : (f, v) ∈ p := by
  induction p with
  | nil => simp [assocGet] at h
  | cons kv rest ih =>
      obtain ⟨k, w⟩ := kv
      by_cases hk : k = f
      · subst hk
        simp [assocGet] at h
        simp [h]
      · simp [assocGet, hk] at h
        simp [ih h]

theorem assocGet_maskPayloadField_ne (p : List (String × PValue)) (f g : String)
    (hfg : f ≠ g) : assocGet (maskPayloadField p g) f = assocGet p f := by
  unfold maskPayloadField
  cases hg : assocGet p g with
  | none => rfl
  | some v =>
      by_cases ht : pvTruthy v = true
      · simp only [ht, if_true]
        rw [assocGet_map_entry (fun k v2 => if k = g then PValue.pstr "***" else v2)]
        cases assocGet p f with
        | none => rfl
        | some w => simp [hfg]
      · simp [eq_false_of_ne_true ht]

theorem assocGet_maskPayloadField_self (p : List (String × PValue)) (f : String) :
    assocGet (maskPayloadField p f) f =
      (match assocGet p f with
       | none => none
       | some v => if pvTruthy v then some (PValue.pstr "***") else some v) := by
  unfold maskPayloadField
  cases hg : assocGet p f with
  | none => simp [hg]
  | some v =>
      by_cases ht : pvTruthy v = true
      · simp only [ht, if_true]
        rw [assocGet_map_entry (fun k v2 => if k = f then PValue.pstr "***" else v2)]
        rw [hg]
        simp
      · simp [hg, eq_false_of_ne_true ht]

theorem maskPayloadField_all_masked (p : List (String × PValue)) (f : String) (v : PValue)
    (hv : assocGet p f = some v) (ht : pvTruthy v = true) :
    ∀ kv ∈ maskPayloadField p f, kv.1 = f → kv.2 = PValue.pstr "***" := by
  unfold maskPayloadField
  rw [hv]
  simp only [ht, if_true]
  intro kv hkv hk
  simp only [List.mem_map] at hkv
  obtain ⟨kv0, _, rfl⟩ := hkv
  simp only at hk
  simp [hk]

theorem maskPayloadField_keeps_masked (p : List (String × PValue)) (g f : String)
    (hfg : f ≠ g) (h : ∀ kv ∈ p, kv.1 = f → kv.2 = PValue.pstr "***") :
    ∀ kv ∈ maskPayloadField p g, kv.1 = f → kv.2 = PValue.pstr "***" := by
  unfold maskPayloadField
  cases hg : assocGet p g with
  | none => exact h
  | some v =>
      by_cases ht : pvTruthy v = true
      · simp only [ht, if_true]
        intro kv hkv hk
        simp only [List.mem_map] at hkv
        obtain ⟨kv0, hkv0, rfl⟩ := hkv
        simp only at hk
        have hne : ¬ (kv0.1 = g) := by rw [hk]; exact hfg
        simp only [hne, if_false]
        exact h kv0 hkv0 hk
      · simp only [eq_false_of_ne_true ht, if_false]
        exact h

theorem maskPayloadField_self_of_masked (p : List (String × PValue)) (f : String)
    (h : ∀ kv ∈ p, kv.1 = f → kv.2 = PValue.pstr "***") :
    maskPayloadField p f = p := by
  unfold maskPayloadField
  cases hg : assocGet p f with
  | none => rfl
  | some v =>
      have hv : v = PValue.pstr "***" := h (f, v) (assocGet_mem p f v hg) rfl
      subst hv
      have htr : pvTruthy (PValue.pstr "***") = true := by decide
      simp only [htr, if_true]
      apply listMapSelf
      intro kv hkv
      obtain ⟨k2, v2⟩ := kv
      by_cases hk : k2 = f
      · have h2 := h (k2, v2) hkv hk
        simp only at h2
        simp [hk, h2]
      · simp [hk]

theorem maskPayloadField_self_of_falsy (p : List (String × PValue)) (f : String)
    (h : ∀ v, assocGet p f = some v → pvTruthy v = false) :
    maskPayloadField p f = p := by
  unfold maskPayloadField
  cases hg : assocGet p f with
  | none => rfl
  | some v => simp [h v hg]

theorem foldl_sensitive (p : List (String × PValue)) :
    sensitivePayloadFields.foldl maskPayloadField p =
      maskPayloadField (maskPayloadField (maskPayloadField p "buttonText") "linkText")
        "message" := rfl

theorem sensitive_fold_idem (p : List (String × PValue)) :
    sensitivePayloadFields.foldl maskPayloadField
      (sensitivePayloadFields.foldl maskPayloadField p) =
    sensitivePayloadFields.foldl maskPayloadField p := by
  rw [foldl_sensitive p, foldl_sensitive]
  have hp1 : assocGet (maskPayloadField p "buttonText") "linkText" = assocGet p "linkText" :=
    assocGet_maskPayloadField_ne p "linkText" "buttonText" (by decide)
  set p1 := maskPayloadField p "buttonText"
  set p2 := maskPayloadField p1 "linkText"
  set p3 := maskPayloadField p2 "message"
  have hbtn : maskPayloadField p3 "buttonText" = p3 := by
    have hlook : assocGet p3 "buttonText" = assocGet p1 "buttonText" := by
      rw [assocGet_maskPayloadField_ne p2 "buttonText" "message" (by decide),
        assocGet_maskPayloadField_ne p1 "buttonText" "linkText" (by decide)]
    cases hg : assocGet p "buttonText" with
    | none =>
        apply maskPayloadField_self_of_falsy
        intro v hv
        rw [hlook, assocGet_maskPayloadField_self, hg] at hv
        simp at hv
    | some v =>
        by_cases ht : pvTruthy v = true
        · apply maskPayloadField_self_of_masked
          have h1 := maskPayloadField_all_masked p "buttonText" v hg ht
          have h2 := maskPayloadField_keeps_masked p1 "linkText" "buttonText" (by decide) h1
          exact maskPayloadField_keeps_masked p2 "message" "buttonText" (by decide) h2
        · apply maskPayloadField_self_of_falsy
          intro w hw
          rw [hlook, assocGet_maskPayloadField_self, hg] at hw
          simp only [eq_false_of_ne_true ht, Bool.false_eq_true, if_false,
            Option.some.injEq] at hw
          subst hw
          exact eq_false_of_ne_true ht
  rw [hbtn]
  have hlnk : maskPayloadField p3 "linkText" = p3 := by
    have hlook : assocGet p3 "linkText" = assocGet (maskPayloadField p1 "linkText") "linkText" :=
      assocGet_maskPayloadField_ne p2 "linkText" "message" (by decide)
    cases hg : assocGet p "linkText" with
    | none =>
        apply maskPayloadField_self_of_falsy
        intro v hv
        rw [hlook, assocGet_maskPayloadField_self, hp1, hg] at hv
        simp at hv
    | some v =>
        by_cases ht : pvTruthy v = true
        · apply maskPayloadField_self_of_masked
          have h1 := maskPayloadField_all_masked p1 "linkText" v (hp1.trans hg) ht
          exact maskPayloadField_keeps_masked p2 "message" "linkText" (by decide) h1
        · apply maskPayloadField_self_of_falsy
          intro w hw
          rw [hlook, assocGet_maskPayloadField_self, hp1, hg] at hw
          simp only [eq_false_of_ne_true ht, Bool.false_eq_true, if_false,
            Option.some.injEq] at hw
          subst hw
          exact eq_false_of_ne_true ht
  rw [hlnk]
  have hmsg : maskPayloadField p3 "message" = p3 := by
    cases hg : assocGet p2 "message" with
    | none =>
        apply maskPayloadField_self_of_falsy
        intro v hv
        rw [assocGet_maskPayloadField_self, hg] at hv
        simp at hv
    | some v =>
        by_cases ht : pvTruthy v = true
        · apply maskPayloadField_self_of_masked
          exact maskPayloadField_all_masked p2 "message" v hg ht
        · apply maskPayloadField_self_of_falsy
          intro w hw
          rw [assocGet_maskPayloadField_self, hg] at hw
          simp only [eq_false_of_ne_true ht, Bool.false_eq_true, if_false,
            Option.some.injEq] at hw
          subst hw
          exact eq_false_of_ne_true ht
  exact hmsg

theorem redactCustomEvent_idem (e : SwingEvent) :
    redactCustomEvent (redactCustomEvent e) = redactCustomEvent e := by
  obtain ⟨ty, dat, ts, dl⟩ := e
  cases dat with
  | none => rfl
  | some d =>
      obtain ⟨nd, src, ad, tx, att, te, idf, vl, pl⟩ := d
      cases pl with
      | none => rfl
      | some p =>
          simp only [redactCustomEvent]
          rw [sensitive_fold_idem]

theorem redactTextRecord_id (t : TextRecord) : redactTextRecord t = t := by
  simp [redactTextRecord, shouldRedactText]

theorem redactAddRecord_idem (rules : List String) (a : AddRecord) :
    redactAddRecord rules (redactAddRecord rules a) = redactAddRecord rules a := by
  obtain ⟨nd⟩ := a
  cases nd with
  | none => rfl
  | some n => simp [redactAddRecord, redactNode_idem]

theorem maskSensitiveAttrEntries_idem (l : List (String × String)) :
    maskSensitiveAttrEntries (maskSensitiveAttrEntries l) = maskSensitiveAttrEntries l := by
  unfold maskSensitiveAttrEntries
  apply map_entry_idem (fun k v => if isRedactedField k then "***" else v)
  intro k v
  by_cases h : isRedactedField k = true
  · simp [h]
  · simp [eq_false_of_ne_true h]

theorem redactAttrRecord_idem (rules : List String) (a : AttrRecord) :
    redactAttrRecord rules (redactAttrRecord rules a) = redactAttrRecord rules a := by
  obtain ⟨idf, att⟩ := a
  by_cases hr : shouldRedactAttribute rules = true
  · cases att with
    | none => simp [redactAttrRecord, hr]
    | some l => simp [redactAttrRecord, hr, maskSensitiveAttrEntries_idem]
  · simp [redactAttrRecord, eq_false_of_ne_true hr]

theorem redactMutations_eq (rules : List String) (d : EventData) :
    redactMutations rules d =
      { d with adds := Option.map (List.map (redactAddRecord rules)) d.adds,
               texts := Option.map (List.map redactTextRecord) d.texts,
               attributes := Option.map (List.map (redactAttrRecord rules)) d.attributes } := by
  obtain ⟨nd, src, ad, tx, att, te, idf, vl, pl⟩ := d
  cases ad <;> cases tx <;> cases att <;> rfl

theorem optListMap_idem {α : Type} (f : α → α) (hf : ∀ x, f (f x) = f x)
    (o : Option (List α)) :
    Option.map (List.map f) (Option.map (List.map f) o) = Option.map (List.map f) o := by
  cases o with
  | none => rfl
  | some l =>
      simp only [Option.map_some', List.map_map, Option.some.injEq]
      apply List.map_congr_left
      intro x _
      simpa [Function.comp] using hf x

theorem redactMutations_idem (rules : List String) (d : EventData) :
    redactMutations rules (redactMutations rules d) = redactMutations rules d := by
  obtain ⟨nd, src, ad, tx, att, te, idf, vl, pl⟩ := d
  rw [redactMutations_eq, redactMutations_eq]
  simp only
  rw [optListMap_idem (redactAddRecord rules) (redactAddRecord_idem rules) ad,
    optListMap_idem redactTextRecord (fun t => by rw [redactTextRecord_id, redactTextRecord_id]) tx,
    optListMap_idem (redactAttrRecord rules) (redactAttrRecord_idem rules) att]

theorem redactMutations_source (rules : List String) (d : EventData) :
    (redactMutations rules d).source = d.source := by
  rw [redactMutations_eq]

theorem redactInputs_source (d : EventData) : (redactInputs d).source = d.source := by
  unfold redactInputs
  split <;> rfl

theorem redactTextData_id (d : EventData) : redactTextData d = d := by
  simp [redactTextData, shouldRedactText]

theorem redactInputs_idem (d : EventData) : redactInputs (redactInputs d) = redactInputs d := by
  obtain ⟨nd, src, ad, tx, att, te, idf, vl, pl⟩ := d
  by_cases h : strTruthy te = true
  · have hst : strTruthy (some "***") = true := by decide
    simp [redactInputs, shouldRedactInput, h, hst]
  · simp [redactInputs, shouldRedactInput, eq_false_of_ne_true h]

theorem redactIncSwitch_source (rules : List String) (d : EventData) :
    (redactIncSwitch rules d).source = d.source := by
  unfold redactIncSwitch
  cases hsrc : d.source with
  | none =>
      show d.source = none
      exact hsrc
  | some s =>
      by_cases h0 : s = 0
      · subst h0
        norm_num
        rw [redactMutations_source]
        exact hsrc
      · by_cases h2 : s = 2
        · subst h2
          norm_num
          rw [redactInputs_source]
          exact hsrc
        · by_cases h3 : s = 3
          · subst h3
            norm_num
            rw [redactTextData_id]
            exact hsrc
          · simp only [if_neg h0, if_neg h2, if_neg h3]
            exact hsrc

theorem redactIncSwitch_idem (rules : List String) (d : EventData) :
    redactIncSwitch rules (redactIncSwitch rules d) = redactIncSwitch rules d := by
  cases hsrc : d.source with
  | none =>
      have e1 : redactIncSwitch rules d = d := by
        unfold redactIncSwitch
        rw [hsrc]
      rw [e1, e1]
  | some s =>
      by_cases h0 : s = 0
      · subst h0
        have e1 : redactIncSwitch rules d = redactMutations rules d := by
          unfold redactIncSwitch
          rw [hsrc]
          norm_num
        have hs2 : (redactMutations rules d).source = some 0 := by
          rw [redactMutations_source]
          exact hsrc
        have e2 : redactIncSwitch rules (redactMutations rules d) =
            redactMutations rules (redactMutations rules d) := by
          unfold redactIncSwitch
          rw [hs2]
          norm_num
        rw [e1, e2, redactMutations_idem]
      · by_cases h2 : s = 2
        · subst h2
          have e1 : redactIncSwitch rules d = redactInputs d := by
            unfold redactIncSwitch
            rw [hsrc]
            norm_num
          have hs2 : (redactInputs d).source = some 2 := by
            rw [redactInputs_source]
            exact hsrc
          have e2 : redactIncSwitch rules (redactInputs d) =
              redactInputs (redactInputs d) := by
            unfold redactIncSwitch
            rw [hs2]
            norm_num
          rw [e1, e2, redactInputs_idem]
        · by_cases h3 : s = 3
          · subst h3
            have e1 : redactIncSwitch rules d = d := by
              unfold redactIncSwitch
              rw [hsrc]
              norm_num
              exact redactTextData_id d
            rw [e1, e1]
          · have e1 : redactIncSwitch rules d = d := by
              unfold redactIncSwitch
              rw [hsrc]
              simp only [if_neg h0, if_neg h2, if_neg h3]
            rw [e1, e1]

theorem redactIncrementalSnapshot_idem (rules : List String) (e : SwingEvent) :
    redactIncrementalSnapshot rules (redactIncrementalSnapshot rules e) =
      redactIncrementalSnapshot rules e := by
  obtain ⟨ty, dat, ts, dl⟩ := e
  cases dat with
  | none => rfl
  | some d =>
      by_cases hst : sourceTruthy d.source = true
      · have e1 : redactIncrementalSnapshot rules ⟨ty, some d, ts, dl⟩ =
            ⟨ty, some (redactIncSwitch rules d), ts, dl⟩ := by
          simp [redactIncrementalSnapshot, hst]
        have hst2 : sourceTruthy (redactIncSwitch rules d).source = true := by
          rw [redactIncSwitch_source]
          exact hst
        have e2 : redactIncrementalSnapshot rules
            (⟨ty, some (redactIncSwitch rules d), ts, dl⟩ : SwingEvent) =
            ⟨ty, some (redactIncSwitch rules (redactIncSwitch rules d)), ts, dl⟩ := by
          simp [redactIncrementalSnapshot, hst2]
        rw [e1, e2, redactIncSwitch_idem]
      · have e1 : redactIncrementalSnapshot rules ⟨ty, some d, ts, dl⟩ =
            ⟨ty, some d, ts, dl⟩ := by
          simp [redactIncrementalSnapshot, eq_false_of_ne_true hst]
        rw [e1, e1]

theorem redactFullSnapshot_idem (rules : List String) (e : SwingEvent) :
    redactFullSnapshot rules (redactFullSnapshot rules e) = redactFullSnapshot rules e := by
  obtain ⟨ty, dat, ts, dl⟩ := e
  cases dat with
  | none => rfl
  | some d =>
      obtain ⟨nd, src, ad, tx, att, te, idf, vl, pl⟩ := d
      cases nd with
      | none => rfl
      | some n =>
          simp only [redactFullSnapshot]
          rw [redactNode_idem]

theorem redactIncrementalSnapshot_type (rules : List String) (e : SwingEvent) :
    (redactIncrementalSnapshot rules e).type = e.type := by
  obtain ⟨ty, dat, ts, dl⟩ := e
  cases dat with
  | none => rfl
  | some d =>
      by_cases hst : sourceTruthy d.source = true
      · simp [redactIncrementalSnapshot, hst]
      · simp [redactIncrementalSnapshot, eq_false_of_ne_true hst]

theorem redactFullSnapshot_type (rules : List String) (e : SwingEvent) :
    (redactFullSnapshot rules e).type = e.type := by
  obtain ⟨ty, dat, ts, dl⟩ := e
  cases dat with
  | none => rfl
  | some d =>
      obtain ⟨nd, src, ad, tx, att, te, idf, vl, pl⟩ := d
      cases nd with
      | none => rfl
      | some n => rfl

theorem redactCustomEvent_type (e : SwingEvent) :
    (redactCustomEvent e).type = e.type := by
  obtain ⟨ty, dat, ts, dl⟩ := e
  cases dat with
  | none => rfl
  | some d =>
      obtain ⟨nd, src, ad, tx, att, te, idf, vl, pl⟩ := d
      cases pl with
      | none => rfl
      | some p => rfl

/-- C4: redaction is idempotent — for every event shape and every configured
rule set, `processEvent (processEvent e) = processEvent e`. With no rules
the function is the identity; with rules, each per-kind redactor (node-tree
masking for full snapshots, source-discriminated masking for incremental
snapshots, fixed-field masking for semantic events) leaves its own output
fixed: masked values `"***"` are truthy and map to `"***"` again, and the
attributes that drive selector matching (`id`, `class`, `type`, `tagName`)
are never overwritten by masking. -/
theorem processEvent_idem (rules : List String) (e : SwingEvent) :
    processEvent rules (processEvent rules e) = processEvent rules e := by
  by_cases hact : isActive rules = true
  · by_cases h3 : e.type = 3
    · have e1 : processEvent rules e = redactIncrementalSnapshot rules e := by
        simp [processEvent, hact, h3]
      have ht : (redactIncrementalSnapshot rules e).type = 3 := by
        rw [redactIncrementalSnapshot_type]
        exact h3
      have e2 : processEvent rules (redactIncrementalSnapshot rules e) =
          redactIncrementalSnapshot rules (redactIncrementalSnapshot rules e) := by
        simp [processEvent, hact, ht]
      rw [e1, e2, redactIncrementalSnapshot_idem]
    · by_cases h2 : e.type = 2
      · have e1 : processEvent rules e = redactFullSnapshot rules e := by
          simp [processEvent, hact, h3, h2]
        have ht2 : (redactFullSnapshot rules e).type = 2 := by
          rw [redactFullSnapshot_type]
          exact h2
        have ht3 : ¬ (redactFullSnapshot rules e).type = 3 := by
          rw [redactFullSnapshot_type]
          rw [h2]
          omega
        have e2 : processEvent rules (redactFullSnapshot rules e) =
            redactFullSnapshot rules (redactFullSnapshot rules e) := by
          simp [processEvent, hact, ht2, ht3]
        rw [e1, e2, redactFullSnapshot_idem]
      · by_cases h5 : e.type = 5
        · have e1 : processEvent rules e = redactCustomEvent e := by
            simp [processEvent, hact, h3, h2, h5]
          have ht5 : (redactCustomEvent e).type = 5 := by
            rw [redactCustomEvent_type]
            exact h5
          have ht3 : ¬ (redactCustomEvent e).type = 3 := by
            rw [redactCustomEvent_type, h5]
            omega
          have ht2 : ¬ (redactCustomEvent e).type = 2 := by
            rw [redactCustomEvent_type, h5]
            omega
          have e2 : processEvent rules (redactCustomEvent e) =
              redactCustomEvent (redactCustomEvent e) := by
            simp [processEvent, hact, ht5, ht3, ht2]
          rw [e1, e2, redactCustomEvent_idem]
        · have e1 : processEvent rules e = e := by
            simp [processEvent, hact, h3, h2, h5]
          rw [e1, e1]
  · have e1 : processEvent rules e = e := by
      simp [processEvent, eq_false_of_ne_true hact]
    rw [e1, e1]

/-- C5: with an empty rule set, `processEvent` returns its input unchanged
for every event kind (`isActive()` is false, so the source returns the same
reference without touching the event; in this pure model that is literal
equality, and purity rules out side effects on the input). -/
theorem processEvent_empty_rules (e : SwingEvent) : processEvent [] e = e := rfl

/-- C3, claim as stated (counterexample): semantic (type-5) events are NOT
masked unconditionally. The tracker's `addCustomEvent` pushes the event into
the buffer without invoking redaction at all, and `processEvent` with an
empty rule set returns the event unchanged (the `isActive()` fast path), so
a button-click event carrying `buttonText = "secret"` reaches the buffer
with its sensitive field intact — contradicting masking "independent of the
configured redaction rule set — including when the rule set is empty". -/
theorem semantic_masking_counterexample :
    (addCustomEvent { events := [] } buttonClickProbeEvent).events = [buttonClickProbeEvent] ∧
    processEvent [] buttonClickProbeEvent = buttonClickProbeEvent ∧
    eventPayloadField buttonClickProbeEvent "buttonText" = some (PValue.pstr "secret") ∧
    PValue.pstr "secret" ≠ PValue.pstr "***" :=
  ⟨rfl, rfl, rfl, by decide⟩

/-- C3 (amended): the buffer path for semantic events applies no redaction
(`addCustomEvent` appends the event as-is); the fixed sensitive payload
fields (`buttonText`, `linkText`, `message`) are masked with `"***"` only
when `processEvent` runs with a non-empty rule set, and only when the field
is present and truthy — a present, falsy field (empty string, `0`, `null`)
is left unchanged. -/
theorem processEvent_semantic_masking (rules : List String) (e : SwingEvent)
    (d : EventData) (p : List (String × PValue))
    (hr : rules ≠ []) (ht : e.type = 5) (hd : e.data = some d)
    (hp : d.payload = some p) :
    ∀ f ∈ sensitivePayloadFields,
      eventPayloadField (processEvent rules e) f =
        (match assocGet p f with
         | none => none
         | some v => if pvTruthy v then some (PValue.pstr "***") else some v) := by
  have hact : isActive rules = true := by
    cases rules with
    | nil => exact absurd rfl hr
    | cons r rs => simp [isActive]
  have h3 : ¬ e.type = 3 := by
    rw [ht]
    omega
  have h2 : ¬ e.type = 2 := by
    rw [ht]
    omega
  have e1 : processEvent rules e = redactCustomEvent e := by
    simp [processEvent, hact, h3, h2, ht]
  rw [e1]
  obtain ⟨ty, dat, ts, dl⟩ := e
  simp only at hd
  subst hd
  obtain ⟨nd, src, ad, tx, att, te, idf, vl, pl⟩ := d
  simp only at hp
  subst hp
  simp only [redactCustomEvent, eventPayloadField]
  intro f hf
  rw [foldl_sensitive]
  fin_cases hf
  · rw [assocGet_maskPayloadField_ne _ "buttonText" "message" (by decide),
      assocGet_maskPayloadField_ne _ "buttonText" "linkText" (by decide),
      assocGet_maskPayloadField_self]
  · rw [assocGet_maskPayloadField_ne _ "linkText" "message" (by decide),
      assocGet_maskPayloadField_self,
      assocGet_maskPayloadField_ne _ "linkText" "buttonText" (by decide)]
  · rw [assocGet_maskPayloadField_self,
      assocGet_maskPayloadField_ne _ "message" "linkText" (by decide),
      assocGet_maskPayloadField_ne _ "message" "buttonText" (by decide)]

/-- Witness for the amended C3 at a concrete input: one rule configured, the
probe button-click event; its truthy `buttonText` is masked, the other two
fields are absent. -/
theorem processEvent_semantic_masking_witness :
    eventPayloadField (processEvent ["input"] buttonClickProbeEvent) "buttonText" =
      some (PValue.pstr "***") ∧
    eventPayloadField (processEvent ["input"] buttonClickProbeEvent) "linkText" = none ∧
    eventPayloadField (processEvent ["input"] buttonClickProbeEvent) "message" = none := by
  have h := processEvent_semantic_masking ["input"] buttonClickProbeEvent
    { emptyEventData with payload := some buttonClickProbePayload }
    buttonClickProbePayload (by simp) rfl rfl rfl
  refine ⟨?_, ?_, ?_⟩
  · rw [h "buttonText" (by simp [sensitivePayloadFields])]
    rfl
  · rw [h "linkText" (by simp [sensitivePayloadFields])]
    rfl
  · rw [h "message" (by simp [sensitivePayloadFields])]
    rfl

/-! ### Lemmas: console wrappers, session store, scheduler -/

/-- C6, claim as stated (counterexample): the wrapped console entry points do
NOT forward before enqueueing. The wrapper body calls
`trackConsoleEvent(level, args)` (which enqueues the semantic event) first
and invokes the saved original console function second, so no forwarding
step precedes an enqueue step in the call's trace. -/
theorem console_forwarding_order_counterexample :
    ¬ forwardsBeforeEnqueue (wrappedConsoleCall "log" [JVal.jstr "hello"]) := by
  rintro ⟨i, j, hij, ⟨s1, hs1, hfwd⟩, ⟨s2, hs2, henq⟩⟩
  rcases i with _ | i1
  · simp [wrappedConsoleCall] at hs1
    rw [← hs1] at hfwd
    simp [isCallOriginal] at hfwd
  · rcases i1 with _ | i2
    · rcases j with _ | j1
      · exact absurd hij (by omega)
      · rcases j1 with _ | j2
        · exact absurd hij (by omega)
        · simp [wrappedConsoleCall] at hs2
    · simp [wrappedConsoleCall] at hs1

/-- C6 (amended): each wrapped console entry point performs exactly two
steps — it first enqueues the semantic console event (message built by
stringifying and space-joining the arguments) and only then forwards the
call, with the original arguments, to the saved original implementation.
Relative to the original claim the order of the two effects is reversed;
both still always happen exactly once per call. -/
theorem wrappedConsole_enqueue_then_forward (level : String) (args : List JVal) :
    (wrappedConsoleCall level args).length = 2 ∧
    (wrappedConsoleCall level args)[0]? =
      some (ConsoleStep.enqueue level (consoleMessage args)) ∧
    (wrappedConsoleCall level args)[1]? =
      some (ConsoleStep.callOriginal level args) :=
  ⟨rfl, rfl, rfl⟩

theorem assocSet_get {α : Type} (l : List (String × α)) (k : String) (v : α) :
    assocGet (assocSet l k v) k = some v := by
  induction l with
  | nil => simp [assocSet, assocGet]
  | cons kv rest ih =>
      obtain ⟨k2, v2⟩ := kv
      by_cases hk : k2 = k
      · simp [assocSet, hk, assocGet]
      · simp [assocSet, hk, assocGet, ih]

/-- C7: `getOrCreateSession` returns the stored identifier unchanged (and
leaves the stores untouched) when one is present, truthy, and the
last-activity timestamp is within 30 minutes of now; otherwise it returns a
fresh `swing_<epochMillis>_<random>` identifier and persists it through
`setCookie`, so it is retrievable from the cookie jar (with expiry exactly
one day after now) and — even if the cookie jar alone is lost — from the
localStorage backup via the fallback read. -/
theorem getOrCreateSession_spec (apiKey : String) (now : Int) (rand : String)
    (st : BrowserStore) :
    (∀ sid, getCookieM st ("swing_session_" ++ apiKey) = some sid → sid ≠ "" →
      isSessionValid now (lsGet st "swing_last_activity") = true →
      getOrCreateSession apiKey now rand st = (sid, st)) ∧
    ((∀ sid, getCookieM st ("swing_session_" ++ apiKey) = some sid →
        sid = "" ∨ isSessionValid now (lsGet st "swing_last_activity") = false) →
      (getOrCreateSession apiKey now rand st).1 =
        "swing_" ++ toString now ++ "_" ++ rand ∧
      cookieGet (getOrCreateSession apiKey now rand st).2 ("swing_session_" ++ apiKey) =
        some ((getOrCreateSession apiKey now rand st).1, now + 86400000) ∧
      lsGet (getOrCreateSession apiKey now rand st).2 ("swing_session_" ++ apiKey) =
        some (getOrCreateSession apiKey now rand st).1 ∧
      getCookieM ⟨[], (getOrCreateSession apiKey now rand st).2.localStore⟩
        ("swing_session_" ++ apiKey) = some (getOrCreateSession apiKey now rand st).1) := by
  constructor
  · intro sid hsid hne hval
    unfold getOrCreateSession
    rw [hsid]
    show (if sid ≠ "" ∧ isSessionValid now (lsGet st "swing_last_activity") = true
        then (sid, st)
        else (generateSessionId now rand,
          setCookieM st ("swing_session_" ++ apiKey) (generateSessionId now rand) 1 now)) =
      (sid, st)
    rw [if_pos ⟨hne, hval⟩]
  · intro hbad
    have hmint : getOrCreateSession apiKey now rand st =
        (generateSessionId now rand,
          setCookieM st ("swing_session_" ++ apiKey) (generateSessionId now rand) 1 now) := by
      unfold getOrCreateSession
      cases hc : getCookieM st ("swing_session_" ++ apiKey) with
      | none => rfl
      | some sid =>
          show (if sid ≠ "" ∧ isSessionValid now (lsGet st "swing_last_activity") = true
              then (sid, st)
              else (generateSessionId now rand,
                setCookieM st ("swing_session_" ++ apiKey) (generateSessionId now rand) 1 now)) =
            (generateSessionId now rand,
              setCookieM st ("swing_session_" ++ apiKey) (generateSessionId now rand) 1 now)
          rw [if_neg]
          rintro ⟨hne, hval⟩
          rcases hbad sid hc with h | h
          · exact hne h
          · rw [hval] at h
            exact absurd h (by simp)
    rw [hmint]
    refine ⟨rfl, ?_, ?_, ?_⟩
    · simp only [setCookieM, cookieGet]
      rw [assocSet_get]
      norm_num [generateSessionId]
    · simp only [setCookieM, lsGet]
      rw [assocSet_get]
    · simp only [setCookieM, getCookieM, cookieGet, lsGet, assocGet]
      rw [assocSet_get]

/-- Witness for C7: a store with a live session (activity 0 milliseconds
ago) is reused unchanged, and an empty store mints and persists a fresh
identifier retrievable from both stores. -/
theorem getOrCreateSession_spec_witness :
    getOrCreateSession "k" 1000 "r"
      ⟨[("swing_session_k", "swing_1_ab", 500)], [("swing_last_activity", "1000")]⟩ =
      ("swing_1_ab",
        ⟨[("swing_session_k", "swing_1_ab", 500)], [("swing_last_activity", "1000")]⟩) ∧
    ((getOrCreateSession "k" 9999 "r" ⟨[], []⟩).1 =
        "swing_" ++ toString (9999 : Int) ++ "_" ++ "r" ∧
      cookieGet (getOrCreateSession "k" 9999 "r" ⟨[], []⟩).2 ("swing_session_" ++ "k") =
        some ((getOrCreateSession "k" 9999 "r" ⟨[], []⟩).1, 9999 + 86400000) ∧
      lsGet (getOrCreateSession "k" 9999 "r" ⟨[], []⟩).2 ("swing_session_" ++ "k") =
        some (getOrCreateSession "k" 9999 "r" ⟨[], []⟩).1 ∧
      getCookieM ⟨[], (getOrCreateSession "k" 9999 "r" ⟨[], []⟩).2.localStore⟩
        ("swing_session_" ++ "k") = some (getOrCreateSession "k" 9999 "r" ⟨[], []⟩).1) := by
  constructor
  · exact (getOrCreateSession_spec "k" 1000 "r" _).1 "swing_1_ab" (by rfl) (by decide) (by rfl)
  · exact (getOrCreateSession_spec "k" 9999 "r" ⟨[], []⟩).2
      (fun sid hsid => by simp [getCookieM, cookieGet, lsGet, assocGet] at hsid)

theorem handleRawEvent_eq (m : Nat) (st : SchedState) :
    handleRawEvent m st =
      if m ≤ st.buffer.length + 1 then
        startFlush { st with buffer := st.buffer ++ [st.nextId], nextId := st.nextId + 1 }
      else { st with buffer := st.buffer ++ [st.nextId], nextId := st.nextId + 1 } := by
  unfold handleRawEvent
  simp [List.length_append]

theorem appendEvent_inv (st : SchedState) (h : schedInv st) :
    schedInv { st with buffer := st.buffer ++ [st.nextId], nextId := st.nextId + 1 } := by
  unfold schedInv at h ⊢
  show ((st.buffer ++ [st.nextId] : List Nat) : Multiset Nat) +
      (st.inFlight.flatten : Multiset Nat) + (st.delivered : Multiset Nat) =
    ((List.range (st.nextId + 1) : List Nat) : Multiset Nat)
  rw [List.range_succ]
  simp only [← Multiset.coe_add]
  rw [← h]
  abel

theorem startFlush_inv (st : SchedState) (h : schedInv st) : schedInv (startFlush st) := by
  unfold startFlush
  by_cases hb : st.buffer.isEmpty
  · simp [hb, h]
  · simp only [hb, if_false, Bool.false_eq_true]
    unfold schedInv at h ⊢
    show (([] : List Nat) : Multiset Nat) +
        ((st.inFlight ++ [st.buffer]).flatten : Multiset Nat) +
        (st.delivered : Multiset Nat) =
      ((List.range st.nextId : List Nat) : Multiset Nat)
    rw [List.flatten_append]
    simp only [List.flatten_cons, List.flatten_nil, List.append_nil]
    simp only [← Multiset.coe_add]
    rw [← h]
    simp only [Multiset.coe_nil]
    abel

theorem flatten_getElem_eraseIdx (L : List (List Nat)) (i : Nat) (snap : List Nat)
    (h : L[i]? = some snap) :
    (L.flatten : Multiset Nat) =
      ((L.eraseIdx i).flatten : Multiset Nat) + (snap : Multiset Nat) := by
  induction L generalizing i with
  | nil => simp at h
  | cons x xs ih =>
      cases i with
      | zero =>
          simp only [List.getElem?_cons_zero, Option.some.injEq] at h
          subst h
          simp only [List.eraseIdx_zero, List.flatten_cons, List.tail_cons]
          simp only [← Multiset.coe_add]
          abel
      | succ i2 =>
          simp only [List.getElem?_cons_succ] at h
          simp only [List.eraseIdx_cons_succ, List.flatten_cons]
          simp only [← Multiset.coe_add]
          rw [ih i2 h]
          abel

theorem completeFlush_inv (i : Nat) (ok : Bool) (st : SchedState) (h : schedInv st) :
    schedInv (completeFlush i ok st) := by
  unfold completeFlush
  cases hg : st.inFlight[i]? with
  | none => exact h
  | some snap =>
      have hdec := flatten_getElem_eraseIdx st.inFlight i snap hg
      cases ok with
      | true =>
          unfold schedInv at h ⊢
          show (st.buffer : Multiset Nat) +
              ((st.inFlight.eraseIdx i).flatten : Multiset Nat) +
              ((st.delivered ++ snap : List Nat) : Multiset Nat) =
            ((List.range st.nextId : List Nat) : Multiset Nat)
          rw [← h, hdec]
          simp only [← Multiset.coe_add]
          abel
      | false =>
          unfold schedInv at h ⊢
          show ((snap ++ st.buffer : List Nat) : Multiset Nat) +
              ((st.inFlight.eraseIdx i).flatten : Multiset Nat) +
              (st.delivered : Multiset Nat) =
            ((List.range st.nextId : List Nat) : Multiset Nat)
          rw [← h, hdec]
          simp only [← Multiset.coe_add]
          abel

theorem schedStep_inv (m : Nat) (st : SchedState) (a : SchedAct) (h : schedInv st) :
    schedInv (schedStep m st a) := by
  cases a with
  | raw =>
      show schedInv (handleRawEvent m st)
      rw [handleRawEvent_eq]
      by_cases hc : m ≤ st.buffer.length + 1
      · rw [if_pos hc]
        exact startFlush_inv _ (appendEvent_inv st h)
      · rw [if_neg hc]
        exact appendEvent_inv st h
  | custom => exact appendEvent_inv st h
  | tick =>
      show schedInv (timerTick st)
      unfold timerTick
      by_cases hb : st.buffer.isEmpty
      · simp [hb, h]
      · simp only [hb, if_false, Bool.false_eq_true]
        exact startFlush_inv st h
  | complete i ok => exact completeFlush_inv i ok st h

theorem schedFoldl_inv (m : Nat) (acts : List SchedAct) :
    ∀ st : SchedState, schedInv st → schedInv (acts.foldl (schedStep m) st) := by
  induction acts with
  | nil => intro st h; exact h
  | cons a rest ih =>
      intro st h
      exact ih (schedStep m st a) (schedStep_inv m st a h)

theorem schedRun_inv (m : Nat) (acts : List SchedAct) : schedInv (schedRun m acts) := by
  apply schedFoldl_inv
  unfold schedInv schedInit
  simp

/-- C9: the drain of `uploadEvents` — snapshot then clear, with no `await`
between them — is modelled as a single atomic step, which is exactly what
the synchronous source lines give. Under every interleaving of appends,
flush starts and completions, each appended event is in exactly one place
(buffer, exactly one in-flight drain snapshot, or delivered): nothing is
both drained and lost — a failed flight's snapshot returns to the buffer —
and no event occurs in two different concurrent drains, which the pairwise
disjointness of the in-flight snapshots states explicitly. -/
theorem drain_atomic_no_loss_no_dup (m : Nat) (acts : List SchedAct) :
    ((schedRun m acts).buffer ++ (schedRun m acts).inFlight.flatten ++
        (schedRun m acts).delivered).Perm
      (List.range (schedRun m acts).nextId) ∧
    List.Pairwise List.Disjoint (schedRun m acts).inFlight := by
  have hinv := schedRun_inv m acts
  unfold schedInv at hinv
  have hperm : ((schedRun m acts).buffer ++ (schedRun m acts).inFlight.flatten ++
      (schedRun m acts).delivered).Perm (List.range (schedRun m acts).nextId) := by
    apply Multiset.coe_eq_coe.mp
    rw [← Multiset.coe_add, ← Multiset.coe_add]
    exact hinv
  refine ⟨hperm, ?_⟩
  have hnodup : ((schedRun m acts).buffer ++ (schedRun m acts).inFlight.flatten ++
      (schedRun m acts).delivered).Nodup :=
    (hperm.nodup_iff).mpr (List.nodup_range _)
  have hnf : ((schedRun m acts).inFlight.flatten).Nodup := by
    have h1 := (List.nodup_append.mp hnodup).1
    exact (List.nodup_append.mp h1).2.1
  exact (List.nodup_flatten.mp hnf).2

/-- C10, claim as stated (counterexample): flushes are NOT serialized. No
in-flight flag exists in the source; the timer tick only checks that the
buffer is nonempty. Appending an event, flushing, appending another event
while the first send is still awaited, and letting the next tick fire
yields two simultaneously in-flight flush cycles. -/
theorem flush_serialization_counterexample :
    ¬ (∀ (m : Nat) (acts : List SchedAct), ((schedRun m acts).inFlight).length ≤ 1) := by
  intro hall
  have h2 : ((schedRun 50 [SchedAct.raw, SchedAct.tick, SchedAct.raw,
      SchedAct.tick]).inFlight).length = 2 := by decide
  have h := hall 50 [SchedAct.raw, SchedAct.tick, SchedAct.raw, SchedAct.tick]
  omega

/-- C10 (amended): flush cycles can overlap — the concrete four-step trace
reaches two simultaneously in-flight sends — but overlapping in-flight
flushes always carry pairwise disjoint sets of events, because each drain is
a synchronous snapshot-and-clear; so the buffer is never double-drained
even though nothing serializes the cycles. -/
theorem flush_overlap_but_disjoint (m : Nat) (acts : List SchedAct) :
    List.Pairwise List.Disjoint (schedRun m acts).inFlight ∧
    ((schedRun 50 [SchedAct.raw, SchedAct.tick, SchedAct.raw,
        SchedAct.tick]).inFlight).length = 2 := by
  constructor
  · have hinv := schedRun_inv m acts
    unfold schedInv at hinv
    have hperm : ((schedRun m acts).buffer ++ (schedRun m acts).inFlight.flatten ++
        (schedRun m acts).delivered).Perm (List.range (schedRun m acts).nextId) := by
      apply Multiset.coe_eq_coe.mp
      rw [← Multiset.coe_add, ← Multiset.coe_add]
      exact hinv
    have hnodup := (hperm.nodup_iff).mpr (List.nodup_range _)
    have hnf : ((schedRun m acts).inFlight.flatten).Nodup :=
      (List.nodup_append.mp (List.nodup_append.mp hnodup).1).2.1
    exact (List.nodup_flatten.mp hnf).2
  · decide

/-- C8, claim as stated (counterexample): an appended event that brings the
buffer's count to the threshold does NOT always trigger a flush. Fifty
semantic events appended through `addCustomEvent` reach `maxBatchSize = 50`
with no flush ever started, because the threshold check exists only in
`handleEvent` (the raw recording-event path). -/
theorem batch_threshold_counterexample :
    (schedRun 50 (List.replicate 50 SchedAct.custom)).buffer.length = 50 ∧
    (schedRun 50 (List.replicate 50 SchedAct.custom)).flushLog = [] := by
  constructor
  · decide
  · decide

theorem handleRawEvent_buffer_lt (st : SchedState) (h : st.buffer.length < 50) :
    (handleRawEvent 50 st).buffer.length < 50 := by
  rw [handleRawEvent_eq]
  by_cases hc : 50 ≤ st.buffer.length + 1
  · rw [if_pos hc]
    unfold startFlush
    rw [if_neg (by simp)]
    simp
  · rw [if_neg hc]
    simp only [List.length_append, List.length_cons, List.length_nil]
    omega

theorem schedRun_raw_buffer_lt (n : Nat) :
    (schedRun 50 (List.replicate n SchedAct.raw)).buffer.length < 50 := by
  induction n with
  | zero => decide
  | succ n ih =>
      rw [List.replicate_succ']
      unfold schedRun at ih ⊢
      rw [List.foldl_append]
      simp only [List.foldl_cons, List.foldl_nil]
      exact handleRawEvent_buffer_lt _ ih

set_option maxRecDepth 4000 in
/-- C8 (amended): the batch-size threshold is checked only on the raw
recording-event path (`handleEvent`): a raw-only run never leaves
`maxBatchSize = 50` events buffered, and enqueueing 51 raw events triggers
exactly one flush carrying the first 50 events (tokens 0..49 in order),
leaving exactly one event buffered. Semantic events (`addCustomEvent`)
append without a threshold check; see the counterexample. -/
theorem batch_threshold_raw_path (n : Nat) :
    (schedRun 50 (List.replicate 51 SchedAct.raw)).flushLog = [List.range 50] ∧
    (schedRun 50 (List.replicate 51 SchedAct.raw)).buffer = [50] ∧
    (schedRun 50 (List.replicate n SchedAct.raw)).buffer.length < 50 := by
  refine ⟨by decide, by decide, schedRun_raw_buffer_lt n⟩
